import Mathlib

/-!
Verification of the moq publish/subscribe media transport (Rust sources under
`rs/moq` and `rs/hang`) against its natural-language specification.

Byte streams are modelled as `List Nat` (each element one octet).  Fallible
decoders return `Option (α × List Nat)`: the decoded value and the unconsumed
suffix, `none` on any decode error.  Machine integers are modelled as `Nat`
(or `Int` for signed values) with explicit `% 2^w` at the points where the
Rust code can wrap.
-/

namespace Moq

/-- Modelled from the spec (the file `coding/varint.rs` is not in the source
tree): QUIC-style variable-length integer encoding.  Values use the 1/2/4/8
byte form, the high two bits of the first byte indicating the length; the
value is stored big-endian in the remaining bits.  Values must be below
`2^62`. -/
def encVarint (n : Nat) : List Nat :=
  if n < 2^6 then [n]
  else if n < 2^14 then [0x40 + n / 2^8, n % 2^8]
  else if n < 2^30 then
    [0x80 + n / 2^24, n / 2^16 % 2^8, n / 2^8 % 2^8, n % 2^8]
  else
    [0xC0 + n / 2^56, n / 2^48 % 2^8, n / 2^40 % 2^8, n / 2^32 % 2^8,
     n / 2^24 % 2^8, n / 2^16 % 2^8, n / 2^8 % 2^8, n % 2^8]

/-- Modelled from the spec (the file `coding/varint.rs` is not in the source
tree): QUIC-style varint decoder.  The high two bits of the first byte select
the 1/2/4/8 byte form; too-short input is a decode error (`none`). -/
def decVarint : List Nat → Option (Nat × List Nat)
  | [] => none
  | b :: rest =>
    match b / 64 with
    | 0 => some (b % 64, rest)
    | 1 =>
      match rest with
      | b1 :: r => some ((b % 64) * 2^8 + b1, r)
      | _ => none
    | 2 =>
      match rest with
      | b1 :: b2 :: b3 :: r =>
        some (((b % 64) * 2^8 + b1) * 2^16 + b2 * 2^8 + b3, r)
      | _ => none
    | _ =>
      match rest with
      | b1 :: b2 :: b3 :: b4 :: b5 :: b6 :: b7 :: r =>
        some ((((b % 64) * 2^8 + b1) * 2^16 + b2 * 2^8 + b3) * 2^32
              + b4 * 2^24 + b5 * 2^16 + b6 * 2^8 + b7, r)
      | _ => none

theorem decVarint_encVarint (n : Nat) (h : n < 2^62) (rest : List Nat) :
    decVarint (encVarint n ++ rest) = some (n, rest) := by
  unfold encVarint
  split
  · next h1 =>
    simp only [List.cons_append, decVarint]
    have hd : n / 64 = 0 := Nat.div_eq_of_lt h1
    have hm : n % 64 = n := Nat.mod_eq_of_lt h1
    simp [hd, hm]
  · split
    · next h1 h2 =>
      simp only [List.cons_append, decVarint]
      have hd : (0x40 + n / 2^8) / 64 = 1 := by omega
      have hm : (0x40 + n / 2^8) % 64 = n / 2^8 := by omega
      simp only [hd, hm, Option.some.injEq, Prod.mk.injEq, List.nil_append, and_true]
      omega
    · split
      · next h1 h2 h3 =>
        simp only [List.cons_append, decVarint]
        have hd : (0x80 + n / 2^24) / 64 = 2 := by omega
        have hm : (0x80 + n / 2^24) % 64 = n / 2^24 := by omega
        simp only [hd, hm, Option.some.injEq, Prod.mk.injEq, List.nil_append, and_true]
        omega
      · next h1 h2 h3 =>
        simp only [List.cons_append, decVarint]
        have hd : (0xC0 + n / 2^56) / 64 = 3 := by omega
        have hm : (0xC0 + n / 2^56) % 64 = n / 2^56 := by omega
        simp only [hd, hm, Option.some.injEq, Prod.mk.injEq, List.nil_append, and_true]
        omega

/-- Modelled from the spec (the file `coding/encode.rs` is not in the source
tree): a `u8` is encoded as one raw byte. -/
def encU8 (b : Nat) : List Nat := [b]

/-- Modelled from the spec (the file `coding/decode.rs` is not in the source
tree): a `u8` is one raw byte; short input is a decode error. -/
def decU8 : List Nat → Option (Nat × List Nat)
  | [] => none
  | b :: rest => some (b, rest)

/-- Modelled from the spec: booleans are a single byte, 0 or 1. -/
def encBool (b : Bool) : List Nat := [if b then 1 else 0]

/-- Modelled from the spec: booleans are a single byte 0/1, other values
rejected. -/
def decBool : List Nat → Option (Bool × List Nat)
  | [] => none
  | b :: rest =>
    if b = 0 then some (false, rest)
    else if b = 1 then some (true, rest)
    else none

/-- Modelled from the spec: strings and byte blobs are encoded as
`varint length || bytes`.  A Rust `str` or `Vec<u8>` is modelled by its byte
sequence. -/
def encBytes (s : List Nat) : List Nat := encVarint s.length ++ s

/-- Modelled from the spec: decode a length-prefixed byte blob; short input is
a decode error. -/
def decBytes (bs : List Nat) : Option (List Nat × List Nat) :=
  (decVarint bs).bind fun lr =>
    if lr.2.length < lr.1 then none else some (lr.2.take lr.1, lr.2.drop lr.1)

/-- Modelled from the spec (the file `ietf/namespace.rs` is not in the source
tree): a `Path` appears on the wire as a tuple of length-prefixed segments,
`varint segment_count || (varint length || bytes)*`.  A path is modelled as
its list of segments, each a byte sequence. -/
def encNamespace (p : List (List Nat)) : List Nat :=
  encVarint p.length ++ (p.map encBytes).flatten

/-- Modelled from the spec: read `count` length-prefixed segments. -/
def decNamespaceAux : Nat → List Nat → Option (List (List Nat) × List Nat)
  | 0, bs => some ([], bs)
  | count + 1, bs =>
    (decBytes bs).bind fun sr =>
      (decNamespaceAux count sr.2).bind fun ssr =>
        some (sr.1 :: ssr.1, ssr.2)

/-- Modelled from the spec: decode a path tuple. -/
def decNamespace (bs : List Nat) : Option (List (List Nat) × List Nat) :=
  (decVarint bs).bind fun cr => decNamespaceAux cr.1 cr.2

/-- From `coding/parameters.rs`: `Parameters::encode` writes the entry count
and then each `(kind, value)` pair, the value length-prefixed.  The map is
modelled as an association list. -/
def encParameters (ps : List (Nat × List Nat)) : List Nat :=
  encVarint ps.length ++ (ps.map (fun kv => encVarint kv.1 ++ encBytes kv.2)).flatten

/-- From `coding/parameters.rs`: read `count` parameter entries, rejecting a
`kind` already seen (`DecodeError::Duplicate`).  Only the consumed suffix
matters to the callers modelled here (they all discard the map), so the
decoder returns the remaining bytes. -/
def decParametersAux : Nat → List Nat → List Nat → Option (List Nat)
  | 0, _, bs => some bs
  | count + 1, seen, bs =>
    (decVarint bs).bind fun kr =>
      if kr.1 ∈ seen then none
      else
        (decBytes kr.2).bind fun vr => decParametersAux count (kr.1 :: seen) vr.2

/-- From `coding/parameters.rs`: `Parameters::decode` reads a count (rejecting
more than `MAX_PARAMS = 64`), then the entries. -/
def decParameters (bs : List Nat) : Option (List Nat) :=
  (decVarint bs).bind fun cr =>
    if cr.1 > 64 then none else decParametersAux cr.1 [] cr.2

theorem decU8_encU8 (b : Nat) (rest : List Nat) :
    decU8 (encU8 b ++ rest) = some (b, rest) := rfl

theorem decBool_encBool (b : Bool) (rest : List Nat) :
    decBool (encBool b ++ rest) = some (b, rest) := by
  cases b <;> rfl

theorem decBytes_encBytes (s : List Nat) (h : s.length < 2^62) (rest : List Nat) :
    decBytes (encBytes s ++ rest) = some (s, rest) := by
  unfold decBytes encBytes
  rw [List.append_assoc, decVarint_encVarint _ h]
  simp [List.take_left, List.drop_left]

theorem decNamespaceAux_enc (p : List (List Nat))
    (hs : ∀ s ∈ p, s.length < 2^62) (rest : List Nat) :
    decNamespaceAux p.length ((p.map encBytes).flatten ++ rest) = some (p, rest) := by
  induction p generalizing rest with
  | nil => simp [decNamespaceAux]
  | cons s ss ih =>
    simp only [List.map_cons, List.flatten_cons, List.append_assoc, List.length_cons,
      decNamespaceAux]
    rw [decBytes_encBytes s (hs s (by simp))]
    simp only [Option.some_bind]
    rw [ih (fun t ht => hs t (by simp [ht]))]
    rfl

theorem decNamespace_encNamespace (p : List (List Nat))
    (hp : p.length < 2^62) (hs : ∀ s ∈ p, s.length < 2^62) (rest : List Nat) :
    decNamespace (encNamespace p ++ rest) = some (p, rest) := by
  unfold decNamespace encNamespace
  rw [List.append_assoc, decVarint_encVarint _ hp]
  simp only [Option.some_bind]
  exact decNamespaceAux_enc p hs rest

theorem decParametersAux_enc (ps : List (Nat × List Nat)) (seen : List Nat)
    (hk : ∀ kv ∈ ps, kv.1 < 2^62 ∧ kv.2.length < 2^62)
    (hnd : (ps.map Prod.fst).Nodup)
    (hdisj : ∀ kv ∈ ps, kv.1 ∉ seen) (rest : List Nat) :
    decParametersAux ps.length seen
      ((ps.map (fun kv => encVarint kv.1 ++ encBytes kv.2)).flatten ++ rest) =
      some rest := by
  induction ps generalizing seen rest with
  | nil => simp [decParametersAux]
  | cons kv ps ih =>
    simp only [List.map_cons, List.flatten_cons, List.append_assoc, List.length_cons,
      decParametersAux]
    rw [decVarint_encVarint _ (hk kv (by simp)).1]
    have hni : kv.1 ∉ seen := hdisj kv (by simp)
    simp only [Option.some_bind, hni, ite_false]
    rw [decBytes_encBytes _ (hk kv (by simp)).2]
    simp only [Option.some_bind]
    rw [List.map_cons, List.nodup_cons] at hnd
    refine ih (kv.1 :: seen) (fun t ht => hk t (by simp [ht])) hnd.2 ?_ rest
    intro t ht
    simp only [List.mem_cons]
    push_neg
    constructor
    · intro he
      exact hnd.1 (he ▸ List.mem_map_of_mem Prod.fst ht)
    · exact hdisj t (by simp [ht])

theorem decParameters_enc (ps : List (Nat × List Nat))
    (hlen : ps.length ≤ 64)
    (hk : ∀ kv ∈ ps, kv.1 < 2^62 ∧ kv.2.length < 2^62)
    (hnd : (ps.map Prod.fst).Nodup) (rest : List Nat) :
    decParameters (encParameters ps ++ rest) = some rest := by
  unfold decParameters encParameters
  rw [List.append_assoc, decVarint_encVarint _ (by omega)]
  simp only [Option.some_bind]
  rw [if_neg (by omega : ¬ ps.length > 64)]
  exact decParametersAux_enc ps [] hk hnd (by simp) rest

/-- From the moq-transport documentation quoted in `ietf/publish.rs`: group
order `Ascending (0x1)` or `Descending (0x2)`; `0x0` and values above `0x2`
are a protocol error.  (The file declaring `GroupOrder` itself is not in the
source tree.) -/
inductive GroupOrder
  | ascending
  | descending
deriving DecidableEq, Repr

def GroupOrder.toU64 : GroupOrder → Nat
  | .ascending => 1
  | .descending => 2

def encGroupOrder (g : GroupOrder) : List Nat := encVarint g.toU64

def decGroupOrder (bs : List Nat) : Option (GroupOrder × List Nat) :=
  (decVarint bs).bind fun vr =>
    if vr.1 = 1 then some (.ascending, vr.2)
    else if vr.1 = 2 then some (.descending, vr.2)
    else none

/-- From `ietf/subscribe.rs`: the subscription filter type, a varint
`NextGroup = 0x01`, `LargestObject = 0x2`, `AbsoluteStart = 0x3`,
`AbsoluteRange = 0x4`; any other value is `DecodeError::InvalidValue`. -/
inductive FilterType
  | nextGroup
  | largestObject
  | absoluteStart
  | absoluteRange
deriving DecidableEq, Repr

def FilterType.toU64 : FilterType → Nat
  | .nextGroup => 1
  | .largestObject => 2
  | .absoluteStart => 3
  | .absoluteRange => 4

def encFilterType (f : FilterType) : List Nat := encVarint f.toU64

def decFilterType (bs : List Nat) : Option (FilterType × List Nat) :=
  (decVarint bs).bind fun vr =>
    if vr.1 = 1 then some (.nextGroup, vr.2)
    else if vr.1 = 2 then some (.largestObject, vr.2)
    else if vr.1 = 3 then some (.absoluteStart, vr.2)
    else if vr.1 = 4 then some (.absoluteRange, vr.2)
    else none

/-- From `ietf/location.rs`: a `Location` is two varints, `group` then
`object`.  The subscribe decoder only ever discards it, so the decoder here
returns only the remaining bytes. -/
def decLocation (bs : List Nat) : Option (List Nat) :=
  (decVarint bs).bind fun gr => (decVarint gr.2).bind fun br => some br.2

/-- From `ietf/subscribe.rs`: the `Subscribe` control message (id 0x03).
`track_namespace` is a path (list of byte-string segments), `track_name` a
byte string. -/
structure Subscribe where
  requestId : Nat
  trackNamespace : List (List Nat)
  trackName : List Nat
  subscriberPriority : Nat
  groupOrder : GroupOrder
  filterType : FilterType
deriving DecidableEq, Repr

/-- From `Subscribe::encode`: request id, namespace, name, priority, then
always `GroupOrder::Descending`, `forward = true`, the filter type (the code
asserts the filter is not `AbsoluteStart`/`AbsoluteRange`), and a `0`
parameter count. -/
def Subscribe.encode (m : Subscribe) : List Nat :=
  encVarint m.requestId ++ encNamespace m.trackNamespace ++ encBytes m.trackName ++
    encU8 m.subscriberPriority ++ encGroupOrder .descending ++ encBool true ++
    encFilterType m.filterType ++ encU8 0

/-- From `Subscribe::decode`: request id, namespace, name, priority, group
order, `forward` (must be true or `DecodeError::Unsupported`), filter type
(with the start/range locations decoded and discarded for the absolute
variants), then parameters which are decoded and ignored. -/
def Subscribe.decode (bs : List Nat) : Option (Subscribe × List Nat) :=
  (decVarint bs).bind fun rid =>
  (decNamespace rid.2).bind fun ns =>
  (decBytes ns.2).bind fun name =>
  (decU8 name.2).bind fun prio =>
  (decGroupOrder prio.2).bind fun go =>
  (decBool go.2).bind fun fwd =>
  if fwd.1 = false then none
  else
    (decFilterType fwd.2).bind fun ft =>
    (match ft.1 with
     | .absoluteStart => decLocation ft.2
     | .absoluteRange => (decLocation ft.2).bind fun r => (decVarint r).bind fun er => some er.2
     | _ => some ft.2).bind fun r =>
    (decParameters r).bind fun r2 =>
    some (⟨rid.1, ns.1, name.1, prio.1, go.1, ft.1⟩, r2)

/-- From `ietf/subscribe.rs`: the `SubscribeOk` control message (id 0x04). -/
structure SubscribeOk where
  requestId : Nat
  trackAlias : Nat
deriving DecidableEq, Repr

/-- From `SubscribeOk::encode`: request id, track alias, `expires = 0`,
`GroupOrder::Descending`, `content_exists = false`, `0` parameters. -/
def SubscribeOk.encode (m : SubscribeOk) : List Nat :=
  encVarint m.requestId ++ encVarint m.trackAlias ++ encVarint 0 ++
    encGroupOrder .descending ++ encBool false ++ encU8 0

/-- From `SubscribeOk::decode`: request id, track alias, expires (must be 0 or
`DecodeError::Unsupported`), a group-order byte (ignored), `content_exists`
(when true, a largest group/object pair is decoded and discarded), then
ignored parameters. -/
def SubscribeOk.decode (bs : List Nat) : Option (SubscribeOk × List Nat) :=
  (decVarint bs).bind fun rid =>
  (decVarint rid.2).bind fun al =>
  (decVarint al.2).bind fun expires =>
  if expires.1 ≠ 0 then none
  else
    (decU8 expires.2).bind fun go =>
    (decBool go.2).bind fun ce =>
    (if ce.1 then
       (decVarint ce.2).bind fun g => (decVarint g.2).bind fun o => some o.2
     else some ce.2).bind fun r =>
    (decParameters r).bind fun r2 =>
    some (⟨rid.1, al.1⟩, r2)

/-- From `ietf/subscribe.rs`: the `SubscribeError` control message (id 0x05). -/
structure SubscribeError where
  requestId : Nat
  errorCode : Nat
  reasonPhrase : List Nat
deriving DecidableEq, Repr

def SubscribeError.encode (m : SubscribeError) : List Nat :=
  encVarint m.requestId ++ encVarint m.errorCode ++ encBytes m.reasonPhrase

def SubscribeError.decode (bs : List Nat) : Option (SubscribeError × List Nat) :=
  (decVarint bs).bind fun rid =>
  (decVarint rid.2).bind fun code =>
  (decBytes code.2).bind fun reason =>
  some (⟨rid.1, code.1, reason.1⟩, reason.2)

/-- From `ietf/subscribe.rs`: the `Unsubscribe` control message (id 0x0a). -/
structure Unsubscribe where
  requestId : Nat
deriving DecidableEq, Repr

def Unsubscribe.encode (m : Unsubscribe) : List Nat := encVarint m.requestId

def Unsubscribe.decode (bs : List Nat) : Option (Unsubscribe × List Nat) :=
  (decVarint bs).bind fun rid => some (⟨rid.1⟩, rid.2)

/-- From `ietf/publish_namespace.rs`: the `PublishNamespace` control message
(id 0x06). -/
structure PublishNamespace where
  requestId : Nat
  trackNamespace : List (List Nat)
deriving DecidableEq, Repr

/-- From `PublishNamespace::encode`: request id, namespace, `0` parameters. -/
def PublishNamespace.encode (m : PublishNamespace) : List Nat :=
  encVarint m.requestId ++ encNamespace m.trackNamespace ++ encU8 0

/-- From `PublishNamespace::decode`: request id, namespace, then parameters
which are decoded and ignored (the code reads them into `_params`). -/
def PublishNamespace.decode (bs : List Nat) : Option (PublishNamespace × List Nat) :=
  (decVarint bs).bind fun rid =>
  (decNamespace rid.2).bind fun ns =>
  (decParameters ns.2).bind fun r =>
  some (⟨rid.1, ns.1⟩, r)

/-- From `ietf/publish_namespace.rs`: the `PublishNamespaceDone` control
message (id 0x09): just the namespace. -/
structure PublishNamespaceDone where
  trackNamespace : List (List Nat)
deriving DecidableEq, Repr

def PublishNamespaceDone.encode (m : PublishNamespaceDone) : List Nat :=
  encNamespace m.trackNamespace

def PublishNamespaceDone.decode (bs : List Nat) :
    Option (PublishNamespaceDone × List Nat) :=
  (decNamespace bs).bind fun ns => some (⟨ns.1⟩, ns.2)

/-- From `ietf/publish_namespace.rs`: the `PublishNamespaceCancel` control
message (id 0x0c): namespace, error code, reason phrase. -/
structure PublishNamespaceCancel where
  trackNamespace : List (List Nat)
  errorCode : Nat
  reasonPhrase : List Nat
deriving DecidableEq, Repr

def PublishNamespaceCancel.encode (m : PublishNamespaceCancel) : List Nat :=
  encNamespace m.trackNamespace ++ encVarint m.errorCode ++ encBytes m.reasonPhrase

def PublishNamespaceCancel.decode (bs : List Nat) :
    Option (PublishNamespaceCancel × List Nat) :=
  (decNamespace bs).bind fun ns =>
  (decVarint ns.2).bind fun code =>
  (decBytes code.2).bind fun reason =>
  some (⟨ns.1, code.1, reason.1⟩, reason.2)

theorem decGroupOrder_enc (g : GroupOrder) (rest : List Nat) :
    decGroupOrder (encGroupOrder g ++ rest) = some (g, rest) := by
  cases g <;> rfl

theorem decFilterType_enc (f : FilterType) (rest : List Nat) :
    decFilterType (encFilterType f ++ rest) = some (f, rest) := by
  cases f <;> rfl

theorem decParameters_zero (rest : List Nat) :
    decParameters (encU8 0 ++ rest) = some rest := rfl

theorem subscribe_decode_encode (m : Subscribe)
    (hrid : m.requestId < 2^62)
    (hns : m.trackNamespace.length < 2^62)
    (hseg : ∀ s ∈ m.trackNamespace, s.length < 2^62)
    (hname : m.trackName.length < 2^62)
    (hgo : m.groupOrder = .descending)
    (hft : m.filterType = .nextGroup ∨ m.filterType = .largestObject)
    (rest : List Nat) :
    Subscribe.decode (Subscribe.encode m ++ rest) = some (m, rest) := by
  unfold Subscribe.encode Subscribe.decode
  simp only [List.append_assoc]
  rw [decVarint_encVarint _ hrid]
  simp only [Option.some_bind]
  rw [decNamespace_encNamespace _ hns hseg]
  simp only [Option.some_bind]
  rw [decBytes_encBytes _ hname]
  simp only [Option.some_bind]
  rw [decU8_encU8]
  simp only [Option.some_bind]
  rw [decGroupOrder_enc]
  simp only [Option.some_bind]
  rw [decBool_encBool]
  simp only [Option.some_bind, Bool.true_eq_false, ite_false, if_neg]
  rw [decFilterType_enc]
  simp only [Option.some_bind]
  rcases hft with hft | hft <;>
    rw [hft] <;>
    simp only [Option.some_bind] <;>
    rw [decParameters_zero] <;>
    simp only [Option.some_bind] <;>
    rw [← hgo, ← hft]

theorem subscribeOk_decode_encode (m : SubscribeOk)
    (hrid : m.requestId < 2^62) (halias : m.trackAlias < 2^62)
    (rest : List Nat) :
    SubscribeOk.decode (SubscribeOk.encode m ++ rest) = some (m, rest) := by
  unfold SubscribeOk.encode SubscribeOk.decode
  simp only [List.append_assoc]
  rw [decVarint_encVarint _ hrid]
  simp only [Option.some_bind]
  rw [decVarint_encVarint _ halias]
  simp only [Option.some_bind]
  rw [decVarint_encVarint _ (by norm_num : (0:Nat) < 2^62)]
  simp only [Option.some_bind, ne_eq, not_true_eq_false, ite_false, if_neg,
    not_false_eq_true]
  rfl

theorem subscribeError_decode_encode (m : SubscribeError)
    (hrid : m.requestId < 2^62) (hcode : m.errorCode < 2^62)
    (hreason : m.reasonPhrase.length < 2^62) (rest : List Nat) :
    SubscribeError.decode (SubscribeError.encode m ++ rest) = some (m, rest) := by
  unfold SubscribeError.encode SubscribeError.decode
  simp only [List.append_assoc]
  rw [decVarint_encVarint _ hrid]
  simp only [Option.some_bind]
  rw [decVarint_encVarint _ hcode]
  simp only [Option.some_bind]
  rw [decBytes_encBytes _ hreason]
  rfl

theorem unsubscribe_decode_encode (m : Unsubscribe)
    (hrid : m.requestId < 2^62) (rest : List Nat) :
    Unsubscribe.decode (Unsubscribe.encode m ++ rest) = some (m, rest) := by
  unfold Unsubscribe.encode Unsubscribe.decode
  rw [decVarint_encVarint _ hrid]
  rfl

theorem publishNamespace_decode_encode (m : PublishNamespace)
    (hrid : m.requestId < 2^62)
    (hns : m.trackNamespace.length < 2^62)
    (hseg : ∀ s ∈ m.trackNamespace, s.length < 2^62) (rest : List Nat) :
    PublishNamespace.decode (PublishNamespace.encode m ++ rest) = some (m, rest) := by
  unfold PublishNamespace.encode PublishNamespace.decode
  simp only [List.append_assoc]
  rw [decVarint_encVarint _ hrid]
  simp only [Option.some_bind]
  rw [decNamespace_encNamespace _ hns hseg]
  simp only [Option.some_bind]
  rw [decParameters_zero]
  rfl

theorem publishNamespaceDone_decode_encode (m : PublishNamespaceDone)
    (hns : m.trackNamespace.length < 2^62)
    (hseg : ∀ s ∈ m.trackNamespace, s.length < 2^62) (rest : List Nat) :
    PublishNamespaceDone.decode (PublishNamespaceDone.encode m ++ rest) =
      some (m, rest) := by
  unfold PublishNamespaceDone.encode PublishNamespaceDone.decode
  rw [decNamespace_encNamespace _ hns hseg]
  rfl

theorem publishNamespaceCancel_decode_encode (m : PublishNamespaceCancel)
    (hns : m.trackNamespace.length < 2^62)
    (hseg : ∀ s ∈ m.trackNamespace, s.length < 2^62)
    (hcode : m.errorCode < 2^62)
    (hreason : m.reasonPhrase.length < 2^62) (rest : List Nat) :
    PublishNamespaceCancel.decode (PublishNamespaceCancel.encode m ++ rest) =
      some (m, rest) := by
  unfold PublishNamespaceCancel.encode PublishNamespaceCancel.decode
  simp only [List.append_assoc]
  rw [decNamespace_encNamespace _ hns hseg]
  simp only [Option.some_bind]
  rw [decVarint_encVarint _ hcode]
  simp only [Option.some_bind]
  rw [decBytes_encBytes _ hreason]
  rfl

/-- C5 counterexample: the claim `decode(encode(m)) == m` for every control
message fails for `Subscribe`.  `Subscribe::encode` always writes
`GroupOrder::Descending` regardless of the message's `group_order` field, so a
`Subscribe` with `Ascending` group order does not round-trip: decoding its
encoding yields the same message with `Descending` instead. -/
theorem c5_counterexample :
    Subscribe.decode
        (Subscribe.encode ⟨1, [[97]], [118], 0, .ascending, .largestObject⟩) ≠
      some (⟨1, [[97]], [118], 0, .ascending, .largestObject⟩, []) := by
  decide

/-- C5 (amended): `decode(encode(m)) == m` holds for `SubscribeOk`,
`SubscribeError`, `Unsubscribe`, `PublishNamespace`, `PublishNamespaceDone`
and `PublishNamespaceCancel` whenever the numeric fields and lengths fit in a
varint (below `2^62`); for `Subscribe` it additionally requires
`group_order = Descending` (the encoder always writes `Descending`) and a
non-absolute filter type (the encoder asserts against the absolute variants
and writes no start/end locations for them). -/
theorem c5_roundtrip :
    (∀ m : Subscribe, m.requestId < 2^62 → m.trackNamespace.length < 2^62 →
      (∀ s ∈ m.trackNamespace, s.length < 2^62) → m.trackName.length < 2^62 →
      m.groupOrder = .descending →
      (m.filterType = .nextGroup ∨ m.filterType = .largestObject) →
      Subscribe.decode (Subscribe.encode m) = some (m, [])) ∧
    (∀ m : SubscribeOk, m.requestId < 2^62 → m.trackAlias < 2^62 →
      SubscribeOk.decode (SubscribeOk.encode m) = some (m, [])) ∧
    (∀ m : SubscribeError, m.requestId < 2^62 → m.errorCode < 2^62 →
      m.reasonPhrase.length < 2^62 →
      SubscribeError.decode (SubscribeError.encode m) = some (m, [])) ∧
    (∀ m : Unsubscribe, m.requestId < 2^62 →
      Unsubscribe.decode (Unsubscribe.encode m) = some (m, [])) ∧
    (∀ m : PublishNamespace, m.requestId < 2^62 → m.trackNamespace.length < 2^62 →
      (∀ s ∈ m.trackNamespace, s.length < 2^62) →
      PublishNamespace.decode (PublishNamespace.encode m) = some (m, [])) ∧
    (∀ m : PublishNamespaceDone, m.trackNamespace.length < 2^62 →
      (∀ s ∈ m.trackNamespace, s.length < 2^62) →
      PublishNamespaceDone.decode (PublishNamespaceDone.encode m) = some (m, [])) ∧
    (∀ m : PublishNamespaceCancel, m.trackNamespace.length < 2^62 →
      (∀ s ∈ m.trackNamespace, s.length < 2^62) → m.errorCode < 2^62 →
      m.reasonPhrase.length < 2^62 →
      PublishNamespaceCancel.decode (PublishNamespaceCancel.encode m) =
        some (m, [])) := by
  refine ⟨?_, ?_, ?_, ?_, ?_, ?_, ?_⟩
  · intro m h1 h2 h3 h4 h5 h6
    have := subscribe_decode_encode m h1 h2 h3 h4 h5 h6 []
    rwa [List.append_nil] at this
  · intro m h1 h2
    have := subscribeOk_decode_encode m h1 h2 []
    rwa [List.append_nil] at this
  · intro m h1 h2 h3
    have := subscribeError_decode_encode m h1 h2 h3 []
    rwa [List.append_nil] at this
  · intro m h1
    have := unsubscribe_decode_encode m h1 []
    rwa [List.append_nil] at this
  · intro m h1 h2 h3
    have := publishNamespace_decode_encode m h1 h2 h3 []
    rwa [List.append_nil] at this
  · intro m h1 h2
    have := publishNamespaceDone_decode_encode m h1 h2 []
    rwa [List.append_nil] at this
  · intro m h1 h2 h3 h4
    have := publishNamespaceCancel_decode_encode m h1 h2 h3 h4 []
    rwa [List.append_nil] at this

/-- C5 witness: the round-trip law evaluated at concrete messages, including a
`Subscribe` with a nested (two-segment) namespace and a `SubscribeError` whose
reason phrase is the non-ASCII UTF-8 sequence `[0xC3, 0xA9]`. -/
theorem c5_witness :
    Subscribe.decode
        (Subscribe.encode ⟨1, [[99], [114]], [118], 255, .descending, .largestObject⟩) =
      some (⟨1, [[99], [114]], [118], 255, .descending, .largestObject⟩, []) ∧
    SubscribeOk.decode (SubscribeOk.encode ⟨42, 42⟩) = some (⟨42, 42⟩, []) ∧
    SubscribeError.decode (SubscribeError.encode ⟨123, 500, [195, 169]⟩) =
      some (⟨123, 500, [195, 169]⟩, []) ∧
    Unsubscribe.decode (Unsubscribe.encode ⟨999⟩) = some (⟨999⟩, []) ∧
    PublishNamespace.decode (PublishNamespace.encode ⟨1, [[116]]⟩) =
      some (⟨1, [[116]]⟩, []) ∧
    PublishNamespaceDone.decode (PublishNamespaceDone.encode ⟨[[111]]⟩) =
      some (⟨[[111]]⟩, []) ∧
    PublishNamespaceCancel.decode (PublishNamespaceCancel.encode ⟨[[99]], 1, [83]⟩) =
      some (⟨[[99]], 1, [83]⟩, []) :=
  ⟨c5_roundtrip.1 _ (by decide) (by decide) (by decide) (by decide) rfl (Or.inr rfl),
   c5_roundtrip.2.1 _ (by decide) (by decide),
   c5_roundtrip.2.2.1 _ (by decide) (by decide) (by decide),
   c5_roundtrip.2.2.2.1 _ (by decide),
   c5_roundtrip.2.2.2.2.1 _ (by decide) (by decide) (by decide),
   c5_roundtrip.2.2.2.2.2.1 _ (by decide) (by decide),
   c5_roundtrip.2.2.2.2.2.2 _ (by decide) (by decide) (by decide) (by decide)⟩

/-- Wire bytes of a `Subscribe` message in which the trailing parameters block
is an arbitrary encoded `Parameters` map instead of the encoder's fixed empty
one (the layout of `Subscribe::decode`). -/
def subscribeBytesWithParams (m : Subscribe) (ps : List (Nat × List Nat)) :
    List Nat :=
  encVarint m.requestId ++ encNamespace m.trackNamespace ++ encBytes m.trackName ++
    encU8 m.subscriberPriority ++ encGroupOrder m.groupOrder ++ encBool true ++
    encFilterType m.filterType ++ encParameters ps

/-- Wire bytes of a `PublishNamespace` message with an arbitrary encoded
parameters block (the layout of `PublishNamespace::decode`). -/
def publishNamespaceBytesWithParams (m : PublishNamespace)
    (ps : List (Nat × List Nat)) : List Nat :=
  encVarint m.requestId ++ encNamespace m.trackNamespace ++ encParameters ps

/-- C6 counterexample: the claim that `PublishNamespace` with any parameters
fails to decode is false.  `PublishNamespace::decode` reads the parameters
into `_params` and ignores them, exactly like `Subscribe::decode`; these bytes
carry `request_id = 1`, namespace `[[97]]` and one parameter `(0, [7])`, and
decode successfully. -/
theorem c6_counterexample :
    PublishNamespace.decode [1, 1, 1, 97, 1, 0, 1, 7] = some (⟨1, [[97]]⟩, []) := by
  decide

/-- C6 (amended): a `Subscribe` whose trailing parameters block is non-empty
still decodes with the parameters ignored, and so does a `PublishNamespace` —
the implementation is equally lenient for both (its decoder reads the
parameters into a discarded binding).  Parameters must form a valid block: at
most 64 entries, no duplicate keys, values within varint bounds. -/
theorem c6_parameters_ignored :
    (∀ (m : Subscribe) (ps : List (Nat × List Nat)),
      m.requestId < 2^62 → m.trackNamespace.length < 2^62 →
      (∀ s ∈ m.trackNamespace, s.length < 2^62) → m.trackName.length < 2^62 →
      (m.filterType = .nextGroup ∨ m.filterType = .largestObject) →
      ps.length ≤ 64 → (∀ kv ∈ ps, kv.1 < 2^62 ∧ kv.2.length < 2^62) →
      (ps.map Prod.fst).Nodup →
      Subscribe.decode (subscribeBytesWithParams m ps) = some (m, [])) ∧
    (∀ (m : PublishNamespace) (ps : List (Nat × List Nat)),
      m.requestId < 2^62 → m.trackNamespace.length < 2^62 →
      (∀ s ∈ m.trackNamespace, s.length < 2^62) →
      ps.length ≤ 64 → (∀ kv ∈ ps, kv.1 < 2^62 ∧ kv.2.length < 2^62) →
      (ps.map Prod.fst).Nodup →
      PublishNamespace.decode (publishNamespaceBytesWithParams m ps) =
        some (m, [])) := by
  constructor
  · intro m ps h1 h2 h3 h4 hft h5 h6 h7
    unfold subscribeBytesWithParams Subscribe.decode
    simp only [List.append_assoc]
    rw [decVarint_encVarint _ h1]
    simp only [Option.some_bind]
    rw [decNamespace_encNamespace _ h2 h3]
    simp only [Option.some_bind]
    rw [decBytes_encBytes _ h4]
    simp only [Option.some_bind]
    rw [decU8_encU8]
    simp only [Option.some_bind]
    rw [decGroupOrder_enc]
    simp only [Option.some_bind]
    rw [decBool_encBool]
    simp only [Option.some_bind, Bool.true_eq_false, ite_false, if_neg]
    rw [decFilterType_enc]
    simp only [Option.some_bind]
    rcases hft with hft | hft <;>
      rw [hft] <;>
      simp only [Option.some_bind] <;>
      rw [show encParameters ps = encParameters ps ++ [] from (List.append_nil _).symm,
        decParameters_enc ps h5 h6 h7] <;>
      simp only [Option.some_bind] <;>
      rw [← hft]
  · intro m ps h1 h2 h3 h5 h6 h7
    unfold publishNamespaceBytesWithParams PublishNamespace.decode
    simp only [List.append_assoc]
    rw [decVarint_encVarint _ h1]
    simp only [Option.some_bind]
    rw [decNamespace_encNamespace _ h2 h3]
    simp only [Option.some_bind]
    rw [show encParameters ps = encParameters ps ++ [] from (List.append_nil _).symm,
      decParameters_enc ps h5 h6 h7]
    rfl

/-- C6 witness: both decoders accept a concrete message carrying one parameter
`(0, [7])`. -/
theorem c6_witness :
    Subscribe.decode
        (subscribeBytesWithParams ⟨1, [[97]], [118], 0, .descending, .largestObject⟩
          [(0, [7])]) =
      some (⟨1, [[97]], [118], 0, .descending, .largestObject⟩, []) ∧
    PublishNamespace.decode
        (publishNamespaceBytesWithParams ⟨1, [[97]]⟩ [(0, [7])]) =
      some (⟨1, [[97]]⟩, []) :=
  ⟨c6_parameters_ignored.1 _ [(0, [7])] (by decide) (by decide) (by decide)
      (by decide) (Or.inr rfl) (by decide) (by decide) (by decide),
   c6_parameters_ignored.2 _ [(0, [7])] (by decide) (by decide) (by decide)
      (by decide) (by decide) (by decide)⟩

/-- From `Publisher::run_track` in `ietf/publisher.rs`: the per-subscription
scheduler keeps two slots, each holding at most one in-progress group task;
only the sequence numbers matter for the scheduling decisions, so a slot is
modelled as `Option Nat` (`old_sequence` / `new_sequence`, with the task
present exactly when the sequence is). -/
structure SchedState where
  oldSeq : Option Nat
  newSeq : Option Nat
deriving DecidableEq, Repr

/-- From `Publisher::run_track`: both slots start empty. -/
def initSched : SchedState := ⟨none, none⟩

/-- From `Publisher::run_track`, the body handling a new group from the track.
Let `latest = new_sequence.unwrap_or(0)`.  If
`sequence < old_sequence.unwrap_or(0)` the group is skipped (no stream
opened).  Otherwise a serving task is created (stream opened), the old slot's
task is dropped, and: if `sequence >= latest` the previous new task moves to
the old slot and the new task takes the new slot; otherwise the new task
takes the old slot.  Returns the new state and whether a serving task was
spawned for this group. -/
def arriveGroup (s : SchedState) (sequence : Nat) : SchedState × Bool :=
  let latest := s.newSeq.getD 0
  if sequence < s.oldSeq.getD 0 then (s, false)
  else if sequence ≥ latest then
    ({ oldSeq := s.newSeq, newSeq := some sequence }, true)
  else
    ({ oldSeq := some sequence, newSeq := s.newSeq }, true)

/-- From `Publisher::run_track`: the events of one loop iteration — a group
arriving from the track, the old slot's task completing, the new slot's task
completing (the old task then moves to the new slot), and cancellation via
the unsubscribe channel (the loop returns, dropping both tasks). -/
inductive SchedEvent
  | arrive (sequence : Nat)
  | oldDone
  | newDone
  | cancel
deriving DecidableEq, Repr

/-- From `Publisher::run_track`: one step of the scheduler loop.  The
completion arms only fire when the corresponding future exists. -/
def schedStep (s : SchedState) : SchedEvent → SchedState
  | .arrive q => (arriveGroup s q).1
  | .oldDone => if s.oldSeq.isSome then { s with oldSeq := none } else s
  | .newDone => if s.newSeq.isSome then ⟨none, s.oldSeq⟩ else s
  | .cancel => initSched

/-- Number of group-serving tasks held by the scheduler state. -/
def activeTasks (s : SchedState) : Nat :=
  (if s.oldSeq.isSome then 1 else 0) + (if s.newSeq.isSome then 1 else 0)

/-- The scheduler invariant: if the old slot is occupied the new slot is too,
and the new slot's sequence is the greatest sequence currently served. -/
def schedInv (s : SchedState) : Bool :=
  match s.oldSeq, s.newSeq with
  | some o, some n => o ≤ n
  | some _, none => false
  | none, _ => true

/-- C1 counterexample: fed group sequences `[3, 1]` the scheduler does NOT
drop group 1.  After group 3 occupies the new slot the old slot is empty, so
the skip test compares 1 against `old_sequence.unwrap_or(0) = 0`; `1 < 0`
fails and a serving task (unidirectional stream) is spawned for group 1,
which is placed in the old slot. -/
theorem c1_counterexample :
    (arriveGroup (arriveGroup initSched 3).1 1).2 = true ∧
    (arriveGroup (arriveGroup initSched 3).1 1).1 = ⟨some 1, some 3⟩ := by
  decide

/-- C1 (amended): a group is dropped with no stream opened exactly when the
old slot is occupied and the group's sequence is below that slot's sequence;
the comparison uses `old_sequence.unwrap_or(0)`, so with an empty old slot no
group is ever dropped.  In particular, fed `[3, 1]`, group 1 is served in the
old slot rather than dropped. -/
theorem c1_scheduler_skip :
    (∀ (s : SchedState) (sequence o : Nat), s.oldSeq = some o → sequence < o →
      arriveGroup s sequence = (s, false)) ∧
    (∀ (s : SchedState) (sequence : Nat), s.oldSeq = none →
      (arriveGroup s sequence).2 = true) ∧
    (arriveGroup (arriveGroup initSched 3).1 1).1 = ⟨some 1, some 3⟩ := by
  refine ⟨?_, ?_, by decide⟩
  · intro s sequence o ho hlt
    unfold arriveGroup
    rw [ho]
    simp only [Option.getD_some]
    rw [if_pos hlt]
  · intro s sequence ho
    unfold arriveGroup
    rw [ho]
    simp only [Option.getD_none]
    rw [if_neg (by omega)]
    split <;> rfl

/-- C1 witness: the skip rule evaluated concretely — with the old slot holding
sequence 5, an arriving group 2 is dropped with no stream; with an empty old
slot, group 0 is served. -/
theorem c1_witness :
    arriveGroup ⟨some 5, some 7⟩ 2 = (⟨some 5, some 7⟩, false) ∧
    (arriveGroup ⟨none, some 7⟩ 0).2 = true :=
  ⟨c1_scheduler_skip.1 ⟨some 5, some 7⟩ 2 5 rfl (by omega),
   c1_scheduler_skip.2.1 ⟨none, some 7⟩ 0 rfl⟩

/-- C2: every scheduler step — group arrival, old or new task completion,
cancellation — preserves the invariant that at most two serving tasks exist
and that the served group with the greatest sequence occupies the new slot;
the invariant holds initially. -/
theorem c2_scheduler_invariant :
    schedInv initSched = true ∧
    ∀ (s : SchedState) (e : SchedEvent), schedInv s = true →
      schedInv (schedStep s e) = true ∧ activeTasks (schedStep s e) ≤ 2 := by
  refine ⟨rfl, ?_⟩
  intro s e hinv
  obtain ⟨o, n⟩ := s
  cases e with
  | arrive q =>
    simp only [schedStep, arriveGroup]
    cases o <;> cases n <;>
      simp only [Option.getD_some, Option.getD_none] <;>
      split_ifs with h1 h2 <;>
      simp_all [schedInv, activeTasks] <;>
      omega
  | oldDone =>
    cases o <;> cases n <;>
      simp_all [schedStep, schedInv, activeTasks]
  | newDone =>
    cases o <;> cases n <;>
      simp_all [schedStep, schedInv, activeTasks]
  | cancel =>
    simp [schedStep, schedInv, activeTasks, initSched]

/-- C2 witness: the invariant step evaluated at a concrete state and event. -/
theorem c2_witness :
    schedInv (schedStep ⟨some 2, some 3⟩ (.arrive 5)) = true ∧
    activeTasks (schedStep ⟨some 2, some 3⟩ (.arrive 5)) ≤ 2 :=
  (c2_scheduler_invariant.2 ⟨some 2, some 3⟩ (.arrive 5) (by decide))

/-- From `stream_priority` in `ietf/publisher.rs`: the QUIC stream priority.
The low 24 bits are `0xFFFFFF - (group_sequence as u32 & 0xFFFFFF)`, the high
8 bits the track priority; the `i32` shift wraps modulo `2^32` and the final
value is the two's-complement reading of the 32-bit pattern. -/
def stream_priority (track_priority : Nat) (group_sequence : Nat) : Int :=
  let sequence : Nat := 0xFFFFFF - (group_sequence % 2^32 &&& 0xFFFFFF)
  let bits : Nat := (track_priority <<< 24) % 2^32 ||| sequence
  if bits < 2^31 then (bits : Int) else (bits : Int) - 2^32

/-- C3 counterexample: `derive_priority` is not increasing in the group
sequence — for track priority 0, the newer group 1 gets a strictly smaller
priority than group 0 (the code maps newer sequences to smaller low bits via
`0xFFFFFF - sequence`). -/
theorem c3_counterexample :
    ¬ stream_priority 0 1 > stream_priority 0 0 := by
  decide

/-- C3 (amended): for every track priority below 256 and group sequences that
fit in 24 bits, `derive_priority(p, s2) < derive_priority(p, s1)` whenever
`s2 > s1`: the priority is strictly DECREASING in the sequence, not
increasing as claimed. -/
theorem c3_priority_antitone (p s1 s2 : Nat) (hp : p < 2^8)
    (h12 : s1 < s2) (h2 : s2 < 2^24) :
    stream_priority p s2 < stream_priority p s1 := by
  unfold stream_priority
  have hm1 : s1 % 2^32 &&& 0xFFFFFF = s1 := by
    rw [Nat.mod_eq_of_lt (by omega)]
    have : (0xFFFFFF : Nat) = 2^24 - 1 := by norm_num
    rw [this, Nat.and_pow_two_sub_one_of_lt_two_pow (by omega)]
  have hm2 : s2 % 2^32 &&& 0xFFFFFF = s2 := by
    rw [Nat.mod_eq_of_lt (by omega)]
    have : (0xFFFFFF : Nat) = 2^24 - 1 := by norm_num
    rw [this, Nat.and_pow_two_sub_one_of_lt_two_pow (by omega)]
  have hsh : (p <<< 24) % 2^32 = 2^24 * p := by
    rw [Nat.shiftLeft_eq, Nat.mod_eq_of_lt (by omega)]
    ring
  have hor1 : 2^24 * p ||| (0xFFFFFF - s1) = 2^24 * p + (0xFFFFFF - s1) :=
    (Nat.mul_add_lt_is_or (by omega) p).symm
  have hor2 : 2^24 * p ||| (0xFFFFFF - s2) = 2^24 * p + (0xFFFFFF - s2) :=
    (Nat.mul_add_lt_is_or (by omega) p).symm
  dsimp only
  rw [hm1, hm2, hsh, hor1, hor2]
  rcases Nat.lt_or_ge p 128 with hlo | hhi
  · rw [if_pos (by omega), if_pos (by omega)]
    exact_mod_cast (by omega : 2^24 * p + (0xFFFFFF - s2) < 2^24 * p + (0xFFFFFF - s1))
  · rw [if_neg (by omega), if_neg (by omega)]
    have : (2^24 * p + (0xFFFFFF - s2) : Int) < 2^24 * p + (0xFFFFFF - s1) := by
      have := h12
      omega
    omega

/-- C3 witness: the antitone law at concrete values, including a track
priority with the sign bit set (`p = 255`, where the `i32` value is
negative). -/
theorem c3_witness :
    stream_priority 255 10 < stream_priority 255 3 ∧ (3:Nat) < 10 ∧ (10:Nat) < 2^24 :=
  ⟨c3_priority_antitone 255 3 10 (by norm_num) (by norm_num) (by norm_num),
   by norm_num, by norm_num⟩

/-- From `Publisher::run_group` in `ietf/publisher.rs`: one frame on the data
stream — object id `0` (one raw byte), a zero extension-length byte iff the
group header declared extensions, the frame size as a varint, then either the
status byte `0` (empty frame) or the payload bytes.  A frame is modelled by
its payload; its declared size is the payload length. -/
def encodeFrame (hasExtensions : Bool) (payload : List Nat) : List Nat :=
  encU8 0 ++ (if hasExtensions then encU8 0 else []) ++ encVarint payload.length ++
    (if payload.length = 0 then encU8 0 else payload)

/-- From `Publisher::run_group`: the frames of a group, serialized in order;
the stream is then finished (modelled by the end of the byte list — the
publisher sets `has_end = true`, so no explicit end marker is written). -/
def encodeGroupFrames (hasExtensions : Bool) (frames : List (List Nat)) : List Nat :=
  (frames.map (encodeFrame hasExtensions)).flatten

/-- From `Subscriber::run_group` and `Subscriber::run_frame` in
`ietf/subscriber.rs`: read objects until the stream ends cleanly
(`decode_maybe` returning `None`).  Each object: varint `id_delta` which must
be 0, an extension block to skip when the header has extensions, a varint
size; size 0 is followed by a varint status — 0 for an empty frame, 3 for
end-of-group only when the header has no explicit-end flag, anything else an
error; otherwise exactly `size` payload bytes are read.  `fuel` bounds the
recursion; one byte is consumed per iteration at minimum, so any fuel above
the byte count is enough. -/
def decodeGroupFramesAux (hasExtensions hasEnd : Bool) :
    Nat → List Nat → Option (List (List Nat))
  | _, [] => some []
  | 0, _ :: _ => none
  | fuel + 1, b :: bs =>
    (decVarint (b :: bs)).bind fun idr =>
    if idr.1 ≠ 0 then none
    else
      (if hasExtensions then
         (decVarint idr.2).bind fun er =>
           if er.2.length < er.1 then none else some (er.2.drop er.1)
       else some idr.2).bind fun r2 =>
      (decVarint r2).bind fun sr =>
      if sr.1 = 0 then
        (decVarint sr.2).bind fun str =>
        if str.1 = 0 then
          (decodeGroupFramesAux hasExtensions hasEnd fuel str.2).bind fun fs =>
            some ([] :: fs)
        else if str.1 = 3 ∧ hasEnd = false then some []
        else none
      else
        if sr.2.length < sr.1 then none
        else
          (decodeGroupFramesAux hasExtensions hasEnd fuel (sr.2.drop sr.1)).bind
            fun fs => some (sr.2.take sr.1 :: fs)

/-- From `Subscriber::run_group`: parse a whole group body. -/
def decodeGroupFrames (hasExtensions hasEnd : Bool) (bs : List Nat) :
    Option (List (List Nat)) :=
  decodeGroupFramesAux hasExtensions hasEnd (bs.length + 1) bs

theorem length_le_encodeGroupFrames (ext : Bool) (frames : List (List Nat)) :
    frames.length ≤ (encodeGroupFrames ext frames).length := by
  induction frames with
  | nil => simp [encodeGroupFrames]
  | cons f fs ih =>
    simp only [encodeGroupFrames, List.map_cons, List.flatten_cons,
      List.length_append, List.length_cons] at ih ⊢
    have : 1 ≤ (encodeFrame ext f).length := by
      unfold encodeFrame encU8
      simp
    omega

theorem decodeGroupFramesAux_encode (ext hend : Bool) (frames : List (List Nat))
    (hsz : ∀ f ∈ frames, f.length < 2^62) :
    ∀ fuel, frames.length < fuel →
      decodeGroupFramesAux ext hend fuel (encodeGroupFrames ext frames) =
        some frames := by
  induction frames with
  | nil =>
    intro fuel _
    cases fuel <;> rfl
  | cons f fs ih =>
    intro fuel hfuel
    obtain ⟨k, rfl⟩ : ∃ k, fuel = k + 1 := ⟨fuel - 1, by omega⟩
    have hf : f.length < 2^62 := hsz f (by simp)
    simp only [encodeGroupFrames, List.map_cons, List.flatten_cons,
      encodeFrame, encU8, List.append_assoc, List.cons_append, List.nil_append]
    rw [decodeGroupFramesAux]
    have h0 : decVarint (0 :: ((if ext then [0] else []) ++
        (encVarint f.length ++ ((if f.length = 0 then [0] else f) ++
          (List.map (encodeFrame ext) fs).flatten)))) =
        some (0, (if ext then [0] else []) ++
          (encVarint f.length ++ ((if f.length = 0 then [0] else f) ++
            (List.map (encodeFrame ext) fs).flatten))) := rfl
    rw [h0]
    simp only [Option.some_bind, ne_eq, not_true_eq_false, ite_false,
      not_false_eq_true]
    have hext : (if ext then
        (decVarint ((if ext then [0] else []) ++
          (encVarint f.length ++ ((if f.length = 0 then [0] else f) ++
            (List.map (encodeFrame ext) fs).flatten)))).bind fun er =>
          if er.2.length < er.1 then none else some (er.2.drop er.1)
      else some ((if ext then [0] else []) ++
          (encVarint f.length ++ ((if f.length = 0 then [0] else f) ++
            (List.map (encodeFrame ext) fs).flatten)))) =
        some (encVarint f.length ++ ((if f.length = 0 then [0] else f) ++
          (List.map (encodeFrame ext) fs).flatten)) := by
      cases ext with
      | false => simp
      | true =>
        simp only [ite_true, List.cons_append]
        rfl
    rw [hext]
    simp only [Option.some_bind]
    rw [decVarint_encVarint _ hf]
    simp only [Option.some_bind]
    by_cases hz : f.length = 0
    · have hfe : f = [] := List.eq_nil_of_length_eq_zero hz
      simp only [hz, ite_true, List.cons_append, List.nil_append, if_pos rfl]
      have h1 : decVarint (0 :: (List.map (encodeFrame ext) fs).flatten) =
          some (0, (List.map (encodeFrame ext) fs).flatten) := rfl
      rw [h1]
      simp only [Option.some_bind, ite_true, if_pos rfl]
      rw [show (List.map (encodeFrame ext) fs).flatten =
          encodeGroupFrames ext fs from rfl]
      rw [ih (fun t ht => hsz t (by simp [ht])) k (by simpa using hfuel)]
      rw [hfe]
      rfl
    · rw [if_neg hz, if_neg hz]
      rw [if_neg (by simp : ¬ (f ++ (List.map (encodeFrame ext) fs).flatten).length < f.length)]
      rw [List.take_left, List.drop_left]
      rw [show (List.map (encodeFrame ext) fs).flatten =
          encodeGroupFrames ext fs from rfl]
      rw [ih (fun t ht => hsz t (by simp [ht])) k (by simpa using hfuel)]
      rfl

/-- C4: serializing a group's frames with the publisher's frame writer (object
id 0, declared size, payload bytes or empty-frame status, stream finish; the
publisher's header flags are `has_extensions = false`, `has_end = true`) and
parsing the bytes with the subscriber's group reader yields exactly the same
frames — same count, same sizes, same payload bytes, in order. -/
theorem c4_group_roundtrip (frames : List (List Nat))
    (hsz : ∀ f ∈ frames, f.length < 2^62) :
    decodeGroupFrames false true (encodeGroupFrames false frames) = some frames := by
  unfold decodeGroupFrames
  exact decodeGroupFramesAux_encode false true frames hsz _
    (by have := length_le_encodeGroupFrames false frames; omega)

/-- C4 witness: a concrete group with three frames — sizes 3, 0 and 1 —
round-trips through the publisher's writer and the subscriber's reader. -/
theorem c4_witness :
    decodeGroupFrames false true
        (encodeGroupFrames false [[10, 20, 30], [], [7]]) =
      some [[10, 20, 30], [], [7]] :=
  c4_group_roundtrip [[10, 20, 30], [], [7]] (by decide)

/-- From `Control::new` in `ietf/control.rs`: the request-id counter starts at
0 for a client and 1 for a server. -/
def requestIdInit (client : Bool) : Nat := if client then 0 else 1

/-- From `Control::request_id`: `fetch_add(2)` returns the current counter and
advances it by 2, wrapping at `2^64` (`AtomicU64` arithmetic wraps). -/
def request_id (counter : Nat) : Nat × Nat := (counter, (counter + 2) % 2^64)

/-- The i-th id handed out on one side: the value returned by the (i+1)-th
call to `request_id`, i.e. the counter after i advances. -/
def nthRequestId (client : Bool) (i : Nat) : Nat :=
  (request_id ((fun c => (request_id c).2)^[i] (requestIdInit client))).1

theorem nthRequestId_closed (client : Bool) (i : Nat) :
    nthRequestId client i = (requestIdInit client + 2 * i) % 2^64 := by
  unfold nthRequestId request_id
  induction i with
  | zero =>
    simp only [Function.iterate_zero, id_eq]
    cases client <;> rfl
  | succ n ih =>
    rw [Function.iterate_succ_apply']
    simp only at ih ⊢
    rw [ih]
    omega

/-- C7 counterexample: the claim that the i-th client id is `2*i` (and that
ids are strictly increasing) fails at `i = 2^63`: the 64-bit counter wraps,
so the 2^63-th allocated client id is 0 — equal to the 0th id and different
from `2 * 2^63`. -/
theorem c7_counterexample :
    nthRequestId true (2^63) = 0 ∧ nthRequestId true 0 = 0 ∧
      (2 * 2^63 : Nat) ≠ 0 := by
  refine ⟨?_, ?_, by norm_num⟩
  · rw [nthRequestId_closed]
    simp only [requestIdInit, ite_true]
    decide
  · rw [nthRequestId_closed]
    simp [requestIdInit]

/-- C7 (amended): the allocator is a 64-bit counter starting at 0 (client) or
1 (server), each call returning the current value and advancing by 2 modulo
`2^64`.  The i-th client id is `(2*i) mod 2^64` and the i-th server id
`(2*i+1) mod 2^64`; these equal `2*i` and `2*i+1`, and are strictly
increasing, for `i < 2^63` (before the counter wraps); client and server ids
are disjoint for ALL indices, since the modulus preserves parity. -/
theorem c7_request_ids :
    (∀ i, nthRequestId true i = (2 * i) % 2^64 ∧
      nthRequestId false i = (2 * i + 1) % 2^64) ∧
    (∀ i, i < 2^63 → nthRequestId true i = 2 * i ∧
      nthRequestId false i = 2 * i + 1) ∧
    (∀ i j, i < j → j < 2^63 →
      nthRequestId true i < nthRequestId true j ∧
      nthRequestId false i < nthRequestId false j) ∧
    (∀ i j, nthRequestId true i ≠ nthRequestId false j) := by
  have hc : ∀ i, nthRequestId true i = (2 * i) % 2^64 := by
    intro i
    rw [nthRequestId_closed]
    simp [requestIdInit]
  have hs : ∀ i, nthRequestId false i = (2 * i + 1) % 2^64 := by
    intro i
    rw [nthRequestId_closed, show requestIdInit false = 1 from rfl]
    omega
  refine ⟨fun i => ⟨hc i, hs i⟩, ?_, ?_, ?_⟩
  · intro i hi
    rw [hc i, hs i]
    constructor <;> [skip; skip] <;> rw [Nat.mod_eq_of_lt (by omega)]
  · intro i j hij hj
    rw [hc i, hc j, hs i, hs j]
    rw [Nat.mod_eq_of_lt (by omega), Nat.mod_eq_of_lt (by omega),
      Nat.mod_eq_of_lt (by omega), Nat.mod_eq_of_lt (by omega)]
    omega
  · intro i j
    rw [hc i, hs j]
    omega

/-- C7 witness: the law evaluated at small concrete indices — the 3rd client
id is 6, the 3rd server id is 7, client ids increase, and client id 2 differs
from every server id of the same index. -/
theorem c7_witness :
    nthRequestId true 3 = 2 * 3 ∧ nthRequestId false 3 = 2 * 3 + 1 ∧
      nthRequestId true 2 < nthRequestId true 3 ∧
      nthRequestId true 2 ≠ nthRequestId false 2 :=
  ⟨(c7_request_ids.2.1 3 (by norm_num)).1,
   (c7_request_ids.2.1 3 (by norm_num)).2,
   (c7_request_ids.2.2.1 2 3 (by norm_num) (by norm_num)).1,
   c7_request_ids.2.2.2 2 2⟩

/-- Model of the `last_keyframe: HashMap<u32, Timestamp>` in
`hang/src/cmaf/import.rs` as an association list from track id to the
timestamp (in microseconds) of the track's last keyframe. -/
def kfLookup (m : List (Nat × Nat)) (k : Nat) : Option Nat :=
  (m.find? (fun p => p.1 == k)).map (fun p => p.2)

/-- HashMap removal: drop the entry for `k`. -/
def kfRemove (m : List (Nat × Nat)) (k : Nat) : List (Nat × Nat) :=
  m.filter (fun p => p.1 != k)

/-- HashMap insertion: replace any entry for `k`. -/
def kfInsert (m : List (Nat × Nat)) (k v : Nat) : List (Nat × Nat) :=
  (k, v) :: kfRemove m k

/-- From `Import::extract`: a video sample is a keyframe iff
`(flags >> 24) & 0x3 == 0x2` (depends on no other sample) and
`(flags >> 16) & 0x1` is not `0x1` (not a non-sync sample). -/
def videoKeyframeFlags (flags : Nat) : Bool :=
  (flags >>> 24 &&& 0x3 == 2) && !(flags >>> 16 &&& 0x1 == 1)

/-- Ten seconds in microseconds; from `Duration::from_secs(10)` in
`Import::extract`. -/
def tenSecondsUs : Nat := 10000000

/-- From `Import::extract`: the keyframe decision and `last_keyframe` update
for one sample.  Video: the flag test; on a video keyframe every audio
track's entry is removed from the map.  Audio: keyframe iff the track has no
entry or more than ten seconds have elapsed (`timestamp - prev >
Duration::from_secs(10)`; Rust `Duration` subtraction is modelled by
truncated `Nat` subtraction).  Any keyframe records its timestamp in the
map. -/
def processSample (audioTracks : List Nat) (m : List (Nat × Nat))
    (isVideo : Bool) (flags trackId ts : Nat) : Bool × List (Nat × Nat) :=
  let kf :=
    if isVideo then videoKeyframeFlags flags
    else
      match kfLookup m trackId with
      | some prev => decide (ts - prev > tenSecondsUs)
      | none => true
  let m1 := if isVideo && kf then audioTracks.foldl (fun acc a => kfRemove acc a) m
            else m
  let m2 := if kf then kfInsert m1 trackId ts else m1
  (kf, m2)

/-- Run `Import::extract`'s keyframe logic over a list of samples
`(is_video, flags, track_id, timestamp_us)`, returning each sample's keyframe
mark. -/
def processSamples (audioTracks : List Nat) :
    List (Nat × Nat) → List (Bool × Nat × Nat × Nat) → List Bool
  | _, [] => []
  | m, s :: rest =>
    let r := processSample audioTracks m s.1 s.2.1 s.2.2.1 s.2.2.2
    r.1 :: processSamples audioTracks r.2 rest

theorem kfLookup_kfRemove_self (m : List (Nat × Nat)) (k : Nat) :
    kfLookup (kfRemove m k) k = none := by
  unfold kfLookup kfRemove
  rw [List.find?_eq_none.mpr]
  · rfl
  · intro p hp
    have := (List.mem_filter.mp hp).2
    simp only [bne_iff_ne, ne_eq, decide_eq_true_eq] at this ⊢
    simpa using this

theorem kfLookup_kfRemove_none (m : List (Nat × Nat)) (k a : Nat)
    (h : kfLookup m a = none) : kfLookup (kfRemove m k) a = none := by
  unfold kfLookup at h
  unfold kfLookup kfRemove
  rw [List.find?_eq_none.mpr]
  · rfl
  · intro p hp
    have hm := (List.mem_filter.mp hp).1
    have := List.find?_eq_none.mp (by
      cases hfind : List.find? (fun p => p.1 == a) m with
      | none => rfl
      | some v => rw [hfind] at h; simp at h)
    exact this p hm

theorem kfLookup_foldl_remove_none (tracks : List Nat) (m : List (Nat × Nat))
    (a : Nat) (h : kfLookup m a = none) :
    kfLookup (tracks.foldl (fun acc t => kfRemove acc t) m) a = none := by
  induction tracks generalizing m with
  | nil => exact h
  | cons t ts ih =>
    exact ih (kfRemove m t) (kfLookup_kfRemove_none m t a h)

theorem kfLookup_foldl_remove (tracks : List Nat) (m : List (Nat × Nat))
    (a : Nat) (ha : a ∈ tracks) :
    kfLookup (tracks.foldl (fun acc t => kfRemove acc t) m) a = none := by
  induction tracks generalizing m with
  | nil => cases ha
  | cons t ts ih =>
    rcases List.mem_cons.mp ha with rfl | ha
    · exact kfLookup_foldl_remove_none ts (kfRemove m a) a
        (kfLookup_kfRemove_self m a)
    · exact ih (kfRemove m t) ha

/-- C8: the CMAF audio-keyframe rule.  (1) An audio sample is marked keyframe
iff its track has no `last_keyframe` entry or more than ten seconds have
elapsed since it.  (2) A video keyframe removes every audio track's entry, so
the next audio sample on each audio track (distinct from the video track) is
marked keyframe.  (3) With one video keyframe at 0 and audio alone for 11
seconds, the audio samples at 0s, 5s, 10s, 11s are marked
keyframe/none/none/keyframe: the first frame after the 10-second mark is the
keyframe. -/
theorem c8_audio_keyframes :
    (∀ (audio : List Nat) (m : List (Nat × Nat)) (flags tid ts : Nat),
      (processSample audio m false flags tid ts).1 = true ↔
        (kfLookup m tid = none ∨
          ∃ prev, kfLookup m tid = some prev ∧ ts - prev > tenSecondsUs)) ∧
    (∀ (audio : List Nat) (m : List (Nat × Nat)) (flags tid ts a : Nat),
      videoKeyframeFlags flags = true → a ∈ audio → a ≠ tid →
      kfLookup (processSample audio m true flags tid ts).2 a = none) ∧
    processSamples [2] []
        [(true, 0x02000000, 1, 0), (false, 0, 2, 0), (false, 0, 2, 5000000),
         (false, 0, 2, 10000000), (false, 0, 2, 11000000)] =
      [true, true, false, false, true] := by
  refine ⟨?_, ?_, by decide⟩
  · intro audio m flags tid ts
    cases hl : kfLookup m tid with
    | none => simp [processSample, hl]
    | some prev =>
      simp only [processSample, hl, Bool.false_eq_true, if_false,
        decide_eq_true_eq, gt_iff_lt]
      constructor
      · intro h
        exact Or.inr ⟨prev, rfl, h⟩
      · rintro (h | ⟨p, hp, hgt⟩)
        · cases h
        · cases hp
          exact hgt
  · intro audio m flags tid ts a hflags ha hne
    unfold processSample
    rw [hflags]
    simp only [ite_true, Bool.and_true, Bool.true_and]
    unfold kfInsert
    have hrem : kfLookup (audio.foldl (fun acc t => kfRemove acc t) m) a = none :=
      kfLookup_foldl_remove audio m a ha
    unfold kfLookup at hrem ⊢
    rw [List.find?_cons_of_neg _ (by simpa using hne.symm)]
    rw [List.find?_eq_none.mpr]
    · rfl
    · intro p hp
      have hm := (List.mem_filter.mp hp).1
      have := List.find?_eq_none.mp (by
        cases hfind : List.find? (fun p => p.1 == a)
            (audio.foldl (fun acc t => kfRemove acc t) m) with
        | none => rfl
        | some v => rw [hfind] at hrem; simp at hrem)
      exact this p hm

/-- C8 witness: the general rules evaluated at concrete inputs — an audio
sample 11 seconds after its recorded keyframe is marked keyframe, and after a
video keyframe on track 1 the audio track 2's entry is gone. -/
theorem c8_witness :
    (processSample [2] [(2, 0)] false 0 2 11000000).1 = true ∧
    kfLookup (processSample [2] [(2, 5)] true 0x02000000 1 7 ).2 2 = none :=
  ⟨(c8_audio_keyframes.1 [2] [(2, 0)] 0 2 11000000).mpr
      (Or.inr ⟨0, by decide, by decide⟩),
   c8_audio_keyframes.2.1 [2] [(2, 5)] 0x02000000 1 7 2 (by decide) (by decide)
      (by decide)⟩

/-- From `Import::extract`: the frame timestamps of one `trun`'s samples as
the code computes them, in `u64` arithmetic.  `dts` starts at
`tfdt.base_media_decode_time` and advances by each sample's duration (a `u64`
addition, wrapping modulo `2^64`); `pts = (dts as i64 + cts as i64) as u64`
(i.e. `(dts + cts) mod 2^64`); the timestamp is
`1_000_000 * pts / timescale` in `u64`, so the product wraps modulo `2^64`
before the division.  A sample is a `(duration, cts)` pair. -/
def sampleTimestampsCode (timescale : Nat) : Nat → List (Nat × Int) → List Nat
  | _, [] => []
  | dts, s :: rest =>
    (1000000 * (((dts : Int) + s.2) % (2^64 : Int)).toNat % 2^64 / timescale) ::
      sampleTimestampsCode timescale ((dts + s.1) % 2^64) rest

/-- Modelled from the spec, as the reference for the refinement comparison:
decode time starts at `tfdt.base_media_decode_time` and advances by each
sample's duration, `pts = dts + cts`, and
`timestamp_us = 1_000_000 * pts / timescale` — all in exact integer
arithmetic. -/
def sampleTimestampsSpec (timescale : Nat) : Int → List (Nat × Int) → List Int
  | _, [] => []
  | dts, s :: rest =>
    (1000000 * (dts + s.2) / (timescale : Int)) ::
      sampleTimestampsSpec timescale (dts + s.1) rest

/-- No `u64` operation in the timestamp computation wraps: every `pts` is
non-negative with `1_000_000 * pts < 2^64`, and `dts` never exceeds
`2^64`. -/
def timestampsNoOverflow : Nat → List (Nat × Int) → Bool
  | _, [] => true
  | dts, s :: rest =>
    decide (0 ≤ (dts : Int) + s.2) &&
    decide (1000000 * ((dts : Int) + s.2) < (2:Int)^64) &&
    decide (dts + s.1 < 2^64) &&
    timestampsNoOverflow (dts + s.1) rest

/-- C9 counterexample: the emitted timestamp does NOT always equal
`1_000_000 * pts / timescale` in exact integer arithmetic.  With
`base_media_decode_time = 2^45` and timescale 90000, the `u64` product
`1_000_000 * pts` wraps modulo `2^64` and the emitted timestamp differs from
the exact value. -/
theorem c9_counterexample :
    sampleTimestampsCode 90000 (2^45) [(0, 0)] ≠ [1000000 * 2^45 / 90000] := by
  decide

/-- C9 (amended): the code's timestamp computation agrees with the exact
recurrence — `dts` from `tfdt.base_media_decode_time` advanced by each
duration, `pts = dts + cts`, `timestamp = 1_000_000 * pts / timescale` —
whenever no `u64` operation wraps (every `pts` non-negative,
`1_000_000 * pts < 2^64`, `dts` below `2^64`); the product wraps modulo
`2^64` otherwise.  In particular two video samples of duration 3000 at
timescale 90000 are emitted at 0µs and 33333µs. -/
theorem c9_timestamps :
    (∀ (timescale base : Nat) (samples : List (Nat × Int)),
      base < 2^64 →
      timestampsNoOverflow base samples = true →
      (sampleTimestampsCode timescale base samples).map (fun n : Nat => (n : Int)) =
        sampleTimestampsSpec timescale (base : Int) samples) ∧
    sampleTimestampsCode 90000 0 [(3000, 0), (3000, 0)] = [0, 33333] := by
  refine ⟨?_, by decide⟩
  intro timescale base samples
  induction samples generalizing base with
  | nil => intro _ _; rfl
  | cons s rest ih =>
    intro hbase hno
    obtain ⟨dur, cts⟩ := s
    simp only [timestampsNoOverflow, Bool.and_eq_true, decide_eq_true_eq] at hno
    obtain ⟨⟨⟨h0, h1⟩, h2⟩, h3⟩ := hno
    have hlt : (base : Int) + cts < 2^64 := by
      nlinarith [h0, h1]
    have hemod : ((base : Int) + cts) % 2^64 = (base : Int) + cts :=
      Int.emod_eq_of_lt h0 (by exact_mod_cast hlt)
    simp only [sampleTimestampsCode, sampleTimestampsSpec, List.map_cons, hemod]
    have hpnat : ((((base : Int) + cts).toNat : Int)) = (base : Int) + cts :=
      Int.toNat_of_nonneg h0
    have hmul : 1000000 * ((base : Int) + cts).toNat < 2^64 := by
      omega
    congr 1
    · rw [Nat.mod_eq_of_lt hmul]
      push_cast
      rw [hpnat]
    · rw [Nat.mod_eq_of_lt h2]
      have : ((base : Int) + dur) = (((base + dur : Nat)) : Int) := by push_cast; ring
      rw [this]
      exact ih (base + dur) h2 h3

/-- C9 witness: the agreement evaluated at a concrete fragment — two samples
of duration 3000 and one with a negative composition offset, at timescale
90000 starting from decode time 3000. -/
theorem c9_witness :
    (sampleTimestampsCode 90000 3000 [(3000, 0), (3000, -1500)]).map
        (fun n : Nat => (n : Int)) =
      sampleTimestampsSpec 90000 (3000 : Nat) [(3000, 0), (3000, -1500)] :=
  c9_timestamps.1 90000 3000 [(3000, 0), (3000, -1500)] (by norm_num) (by decide)

/-- From `Import::extract`: the only guard on `trun.data_offset` — the
`usize` conversion (a negative offset is `InvalidOffset`) and the test
`data_offset < moof_size` (also `InvalidOffset`).  The guard passes iff
`moof_size <= data_offset`. -/
def trunOffsetGuard (dataOffset moofSize : Nat) : Bool :=
  decide (moofSize ≤ dataOffset)

/-- From `Import::extract`: the sample offset
`base_data_offset + data_offset - moof_size - header_size`, evaluated in
exact integers.  The Rust computation is in `usize`: a negative value here is
an arithmetic underflow — a panic in debug builds, and a wrap to a huge
offset (followed by a panic in `Bytes::slice`) in release builds. -/
def trunOffset (base dataOffset moofSize headerSize : Nat) : Int :=
  (base : Int) + dataOffset - moofSize - headerSize

/-- C10: the claimed safety does not hold.  With `base_data_offset` absent
(0), `moof_size = 8`, an `mdat` header of 8 bytes and `trun.data_offset = 8`,
the guard `data_offset >= moof_size` passes yet the offset computation is
negative — a `usize` underflow.  (For contrast, `data_offset = 16` lands
exactly at the `mdat` payload start.) -/
theorem c10_offset_underflow :
    trunOffsetGuard 8 8 = true ∧ trunOffset 0 8 8 8 < 0 ∧
    trunOffsetGuard 16 8 = true ∧ trunOffset 0 16 8 8 = 0 := by
  decide

end Moq
